import Mathlib

/-!
Verification of the Everclear MCP server's invoice-enrichment pipeline
(`src/index.ts`, `src/utils/chainData.ts`) against its design document.

The TypeScript source is shallowly embedded: JavaScript numbers are modelled
exactly as IEEE-754 binary64 values, represented by the exact non-negative
rational they denote as a numerator/denominator pair of naturals (plus an
explicit sign where the source can produce one); `BigInt` is `Int`; strings
are `String`; untyped JSON fields are `Option`-typed fields (with `""`
treated as falsy, matching `||` and truthiness tests); exceptions are
`Except String`.
-/

set_option maxRecDepth 8000

deriving instance DecidableEq for Except

namespace Everclear

/-- JavaScript `o || dflt` for an optional string field: `undefined`, `null`
and the empty string are falsy. -/
def jsOr (o : Option String) (dflt : String) : String :=
  match o with
  | some s => if s = "" then dflt else s
  | none => dflt

/-- JavaScript truthiness of an optional string field, keeping the value. -/
def optTruthy (o : Option String) : Option String :=
  match o with
  | some s => if s = "" then none else some s
  | none => none

/-- JavaScript `s || dflt` for a string that is always present. -/
def jsOrStr (s : String) (dflt : String) : String :=
  if s = "" then dflt else s

/-- Trim leading and trailing whitespace from a character list (the effect of
JavaScript string trimming on the characters of a string). -/
def trimChars (cs : List Char) : List Char :=
  ((cs.dropWhile Char.isWhitespace).reverse.dropWhile Char.isWhitespace).reverse

/-! ### IEEE-754 binary64 ("double") model

A finite double is identified with the exact rational it denotes, kept as a
`Nat × Nat` numerator/denominator pair (not normalised).  Rounding a positive
rational to the nearest double (round to nearest, ties to even) scales the
value into `[2^52, 2^53)`, rounds the 53-bit significand, and scales back.
Subnormal underflow and overflow to infinity cannot occur at the magnitudes
the claims exercise; the one overflow the source can hit (`10 ** decimals`)
is modelled explicitly in `jsPow10BigInt`. -/

/-- Fueled base-2 logarithm (the fuel only has to exceed the number of
halvings, so `fuel = n` always suffices). -/
def log2Aux : Nat → Nat → Nat
  | 0, _ => 0
  | fuel + 1, n => if n ≤ 1 then 0 else log2Aux fuel (n / 2) + 1

/-- `⌊log₂ n⌋` for `n ≥ 1` (and `0` at `0`), kernel-reducible. -/
def natLog2 (n : Nat) : Nat :=
  log2Aux n n

/-- Round `n / d` (with `d > 0`) to the nearest integer, ties to even. -/
def roundHalfEven (n d : Nat) : Nat :=
  let q := n / d
  let r := n % d
  if 2 * r < d then q
  else if 2 * r > d then q + 1
  else if q % 2 = 0 then q else q + 1

/-- `true` iff `a / b ≥ 2 ^ e` (for `a b > 0`). -/
def ratGe2 (a b : Nat) (e : ℤ) : Bool :=
  if 0 ≤ e then decide (b * 2 ^ e.toNat ≤ a) else decide (b ≤ a * 2 ^ (-e).toNat)

/-- `⌊log₂ (a / b)⌋` for `a b > 0`. -/
def floorLog2Rat (a b : Nat) : ℤ :=
  let e0 : ℤ := (natLog2 a : ℤ) - (natLog2 b : ℤ)
  if ratGe2 a b e0 then e0 else e0 - 1

/-- Nearest binary64 value to the non-negative rational `a / b` (round to
nearest, ties to even), returned as an exact numerator/denominator pair. -/
def roundPair (a b : Nat) : Nat × Nat :=
  if a = 0 then (0, 1)
  else
    let s : ℤ := floorLog2Rat a b - 52
    if s ≤ 0 then (roundHalfEven (a * 2 ^ (-s).toNat) b, 2 ^ (-s).toNat)
    else (roundHalfEven a (b * 2 ^ s.toNat) * 2 ^ s.toNat, 1)

/-- The integer `n` minimising the distance from `n / 10^6` to the
non-negative value `a / b`, larger `n` on ties — the digit count produced by
ECMAScript `toFixed(6)` on the magnitude of a double. -/
def fixed6OfPair (a b : Nat) : Nat :=
  (2 * a * 1000000 + b) / (2 * b)

/-- Zero-pad a decimal string on the left to `k` characters. -/
def padLeftZeros (k : Nat) (s : String) : String :=
  String.mk (List.replicate (k - s.length) '0') ++ s

/-- Render `n` as a decimal with six fractional digits (`n` counts millionths). -/
def fixed6String (n : Nat) : String :=
  toString (n / 1000000) ++ "." ++ padLeftZeros 6 (toString (n % 1000000))

/-! ### `BigInt` string parsing -/

/-- Decimal digit value of a character, if any. -/
def decDigit (c : Char) : Option Nat :=
  if c.isDigit then some (c.toNat - 48) else none

/-- Hexadecimal digit value of a character, if any. -/
def hexDigit (c : Char) : Option Nat :=
  if c.isDigit then some (c.toNat - 48)
  else if 'a' ≤ c ∧ c ≤ 'f' then some (c.toNat - 87)
  else if 'A' ≤ c ∧ c ≤ 'F' then some (c.toNat - 55)
  else none

/-- Parse a non-empty run of digits in the given base; `none` when a character
is not a digit or the run is empty. -/
def parseDigits (digit : Char → Option Nat) (base : Nat) (cs : List Char) : Option Nat :=
  if cs.isEmpty then none
  else cs.foldl (fun acc c =>
    match acc, digit c with
    | some a, some d => some (a * base + d)
    | _, _ => none) (some 0)

/-- ECMAScript `StringToBigInt` (the conversion applied by `BigInt(string)`):
trim whitespace; empty means `0`; `0x`/`0o`/`0b` prefixes take unsigned
digits; otherwise an optional sign and decimal digits.  `none` models the
`SyntaxError` thrown for any other content. -/
def jsBigIntParse (s : String) : Option Int :=
  let cs := trimChars s.toList
  match cs with
  | [] => some 0
  | '0' :: c :: rest =>
      if c = 'x' ∨ c = 'X' then (parseDigits hexDigit 16 rest).map Int.ofNat
      else if c = 'o' ∨ c = 'O' then (parseDigits (fun d => (decDigit d).filter (· < 8)) 8 rest).map Int.ofNat
      else if c = 'b' ∨ c = 'B' then (parseDigits (fun d => (decDigit d).filter (· < 2)) 2 rest).map Int.ofNat
      else (parseDigits decDigit 10 cs).map Int.ofNat
  | '+' :: rest => (parseDigits decDigit 10 rest).map Int.ofNat
  | '-' :: rest => (parseDigits decDigit 10 rest).map (fun n => -(n : Int))
  | _ => (parseDigits decDigit 10 cs).map Int.ofNat

/-- `BigInt(10 ** decimals)`: `10 ** decimals` is computed on doubles; for
`decimals ≥ 309` it overflows to `Infinity` (the largest double is below
`10^309`) and `BigInt` then throws, modelled by `none`.  Otherwise the
correctly-rounded double is integral at these magnitudes (spacing of doubles
at or above `2^52` is a whole number and smaller powers are exact), and
`BigInt` of it is its exact integer value. -/
def jsPow10BigInt (decimals : Nat) : Option Int :=
  if decimals ≤ 308 then
    let p := roundPair (10 ^ decimals) 1
    if p.1 % p.2 = 0 then some (Int.ofNat (p.1 / p.2)) else none
  else none

/-- The amount conversion of `getInvoicesFormatted` (src/index.ts:521-530):
```
let amount = '0.000000';
try {
  const amountInWei = BigInt(invoice.amount || '0');
  const divisor = BigInt(10 ** decimals);
  amount = (Number(amountInWei) / Number(divisor)).toFixed(6);
} catch (error) {
  amount = invoice.amount || '0.000000';
}
```
`Number` on a `BigInt` rounds it to the nearest double; `/` divides doubles
with round-to-nearest; `toFixed(6)` renders the sign of the value followed by
the half-up rounding of its magnitude to millionths. -/
def convertAmount (amount : Option String) (decimals : Nat) : String :=
  match jsBigIntParse (jsOr amount ("0")), jsPow10BigInt decimals with
  | some w, some d =>
      let wd := roundPair w.natAbs 1
      let dd := roundPair d.natAbs 1
      let q := roundPair (wd.1 * dd.2) (wd.2 * dd.1)
      (if w < 0 then "-" else "") ++ fixed6String (fixed6OfPair q.1 q.2)
  | _, _ => jsOr amount ("0.000000")

/-- Parse a non-empty all-decimal-digits string. -/
def parseNatDigits (s : String) : Option Nat :=
  parseDigits decDigit 10 s.toList

/-- Modelled from the spec (§4.3 `toDecimalString`), for comparison with the
code's `convertAmount`: treat the input as an arbitrary-precision non-negative
integer of base units and produce the 6-fractional-digit decimal string equal
to `rawAmount / 10^decimals`, rounding toward zero at the 6th fractional
digit. -/
def specToDecimalString (raw : String) (decimals : Nat) : Option String :=
  (parseNatDigits raw).map (fun n =>
    let scaled := n * 10 ^ 6 / 10 ^ decimals
    toString (scaled / 10 ^ 6) ++ "." ++ padLeftZeros 6 (toString (scaled % 10 ^ 6)))

/-! ### Chain/asset reference data (`src/utils/chainData.ts`)

JavaScript objects used as maps are modelled as association lists in property
insertion order; `Object.assign` is an in-place keyed upsert (existing keys
keep their position and take the new value, new keys are appended), and
`Object.values` projects the values in that order. -/

/-- Keyed upsert, the effect of one `obj[k] = v` assignment. -/
def upsertAssoc {α : Type} (l : List (String × α)) (k : String) (v : α) : List (String × α) :=
  if (l.find? (fun p => p.1 == k)).isSome then
    l.map (fun p => if p.1 == k then (k, v) else p)
  else l ++ [(k, v)]

/-- Association-list lookup, the effect of `obj[k]`. -/
def lookupAssoc {α : Type} (l : List (String × α)) (k : String) : Option α :=
  (l.find? (fun p => p.1 == k)).map (fun p => p.2)

/-- One asset entry of the external registry (`{symbol, tickerHash, decimals}`). -/
structure RegAsset where
  symbol : String
  tickerHash : String
  decimals : Nat
deriving DecidableEq

/-- The hub section of the external registry. -/
structure RegHub where
  assets : List (String × RegAsset)
deriving DecidableEq

/-- One chain section of the external registry (`{network, assets}`). -/
structure RegChain where
  network : String
  assets : List (String × RegAsset)
deriving DecidableEq

/-- The external registry document `{ hub: { assets }, chains }`.  The
`chains` entries are listed in the order `Object.entries` iterates them. -/
structure EverclearData where
  hub : RegHub
  chains : List (String × RegChain)
deriving DecidableEq

/-- The transformed snapshot (`interface ChainData`). -/
structure ChainData where
  chains : List (String × String)
  tokens : List (String × String)
deriving DecidableEq

/-- The hardcoded chain-id → display-name enumeration of `fetchChainData`
(src/utils/chainData.ts:64-90). -/
def chainNames : List (String × String) :=
  [("1", "Ethereum"), ("10", "Optimism"), ("56", "BSC"), ("137", "Polygon"),
   ("250", "Fantom"), ("42161", "Arbitrum"), ("43114", "Avalanche"),
   ("8453", "Base"), ("59144", "Linea"), ("534352", "Scroll"),
   ("48900", "Zircuit"), ("81457", "Blast"), ("167000", "Taiko"),
   ("33139", "ApeChain"), ("34443", "Mode"), ("130", "UniChain"),
   ("324", "zkSync"), ("2020", "Ronin"), ("1399811149", "Solana"),
   ("80094", "Berachain"), ("100", "Gnosis"), ("5000", "Mantle"),
   ("146", "Sonic"), ("57073", "Ink"), ("728126428", "Tron")]

/-- `{ ...everclearData.hub.assets }` followed by
`Object.assign(allAssets, chain.assets)` for each chain. -/
def allAssets (ed : EverclearData) : List (String × RegAsset) :=
  ed.chains.foldl
    (fun acc c => c.2.assets.foldl (fun a p => upsertAssoc a p.1 p.2) acc)
    ed.hub.assets

/-- The transformation of a fetched registry document into a `ChainData`
snapshot (src/utils/chainData.ts:57-109): the chain map comes only from the
hardcoded enumeration; the token map maps each asset's tickerHash to its
symbol (truthy fields only, later assets overriding earlier ones). -/
def transformData (ed : EverclearData) : ChainData :=
  { chains := chainNames.foldl (fun m p => upsertAssoc m p.1 p.2) []
    tokens := ((allAssets ed).map (fun p => p.2)).foldl
      (fun t a => if a.tickerHash ≠ "" ∧ a.symbol ≠ "" then upsertAssoc t a.tickerHash a.symbol else t) [] }

/-- The empty snapshot (constructor fallback `{ chains: {}, tokens: {} }`). -/
def emptyChainData : ChainData :=
  { chains := [], tokens := [] }

/-- The empty registry fallback `{ hub: { assets: {} }, chains: {} }`. -/
def emptyEverclearData : EverclearData :=
  { hub := { assets := [] }, chains := [] }

/-- `convertChainIdToName` (src/utils/chainData.ts:127-131), as a function of
the snapshot the cache currently returns. -/
def convertChainIdToName (d : ChainData) (chainId : String) : String :=
  match lookupAssoc d.chains chainId with
  | some n => n
  | none => s!"Unknown Chain ({chainId})"

/-- `convertTickerhashToName` (src/utils/chainData.ts:138-142). -/
def convertTickerhashToName (d : ChainData) (tickerhash : String) : String :=
  match lookupAssoc d.tokens tickerhash with
  | some n => n
  | none => s!"Unknown Token ({tickerhash})"

/-! ### The reference-data cache -/

/-- `CACHE_DURATION = 5 * 60 * 1000`. -/
def CACHE_DURATION : Nat := 5 * 60 * 1000

/-- The mutable state of `ChainDataService`. -/
structure CacheState where
  data : Option ChainData
  rawData : Option EverclearData
  lastFetch : Nat
deriving DecidableEq

/-- Constructor state: `data` initialised to the empty snapshot, `rawData`
to `null`, `lastFetch` to `0`. -/
def initialCacheState : CacheState :=
  { data := some emptyChainData, rawData := none, lastFetch := 0 }

/-- Result of the external HTTP fetch, as observed by the `try` block: either
a parsed registry document, or any failure (network error, non-2xx status —
which the code turns into a thrown `Error` — or malformed body). -/
inductive FetchOutcome where
  | success (ed : EverclearData)
  | failure (msg : String)
deriving DecidableEq

/-- Cache-miss path of `fetchChainData`: attempt the fetch; on success
transform and store; on any failure return `this.data || empty` unchanged
(src/utils/chainData.ts:49-119). -/
def fetchChainDataMiss (st : CacheState) (now : Nat) (outcome : FetchOutcome) : ChainData × CacheState :=
  match outcome with
  | .success ed =>
      let t := transformData ed
      (t, { st with data := some t, lastFetch := now })
  | .failure _ => (st.data.getD emptyChainData, st)

/-- `fetchChainData` (src/utils/chainData.ts:41-120): return the cached
snapshot while it is fresh, otherwise refresh.  The fetch outcome is passed
as a parameter; the function never throws. -/
def fetchChainData (st : CacheState) (now : Nat) (outcome : FetchOutcome) : ChainData × CacheState :=
  match st.data with
  | some d => if now - st.lastFetch < CACHE_DURATION then (d, st) else fetchChainDataMiss st now outcome
  | none => fetchChainDataMiss st now outcome

/-- Cache-miss path of `fetchEverclearData`: on success store the raw
document; on failure return `this.rawData || empty` unchanged
(src/utils/chainData.ts:275-290). -/
def fetchEverclearDataMiss (st : CacheState) (now : Nat) (outcome : FetchOutcome) : EverclearData × CacheState :=
  match outcome with
  | .success ed => (ed, { st with rawData := some ed, lastFetch := now })
  | .failure _ => (st.rawData.getD emptyEverclearData, st)

/-- `fetchEverclearData` (src/utils/chainData.ts:267-291). -/
def fetchEverclearData (st : CacheState) (now : Nat) (outcome : FetchOutcome) : EverclearData × CacheState :=
  match st.rawData with
  | some d => if now - st.lastFetch < CACHE_DURATION then (d, st) else fetchEverclearDataMiss st now outcome
  | none => fetchEverclearDataMiss st now outcome

/-! ### `getAssetInfo` (src/utils/chainData.ts:207-262) -/

/-- An entry of the `foundAssets` array. -/
structure FoundAsset where
  symbol : String
  decimals : Nat
  isEvm : Bool
deriving DecidableEq

/-- Placeholder for `headD`; never used on the reachable (non-empty) paths. -/
def defaultFoundAsset : FoundAsset :=
  { symbol := "", decimals := 0, isEvm := false }

/-- The `foundAssets` array: hub matches first (always EVM), then every
chain's matches in chain order, EVM iff `chain.network === 'evm'`. -/
def foundAssets (ed : EverclearData) (tickerhash : String) : List FoundAsset :=
  ((ed.hub.assets.map (fun p => p.2)).filter (fun a => a.tickerHash == tickerhash)).map
    (fun a => { symbol := a.symbol, decimals := a.decimals, isEvm := true })
  ++ (ed.chains.map (fun c =>
        ((c.2.assets.map (fun p => p.2)).filter (fun a => a.tickerHash == tickerhash)).map
          (fun a => { symbol := a.symbol, decimals := a.decimals, isEvm := c.2.network == "evm" }))).flatten

/-- `assetsToUse`: the EVM partition (`evmAssets`) when non-empty, else all
matches. -/
def chosenAssets (ed : EverclearData) (tickerhash : String) : List FoundAsset :=
  if ((foundAssets ed tickerhash).filter (fun a => a.isEvm)).length > 0 then
    (foundAssets ed tickerhash).filter (fun a => a.isEvm)
  else foundAssets ed tickerhash

/-- Count of occurrences of `k` in `ds` (the value `decimalsCount[k]`). -/
def countOf (ds : List Nat) (k : Nat) : Nat :=
  (ds.filter (fun d => d == k)).length

/-- The keys of the `decimalsCount` object in iteration order: JavaScript
objects iterate integer-like keys in ascending numeric order, regardless of
insertion order. -/
def ascKeys (ds : List Nat) : List Nat :=
  (List.range (ds.foldr Nat.max 0 + 1)).filter (fun k => ds.contains k)

/-- `Object.entries(decimalsCount)` in iteration order. -/
def countEntries (ds : List Nat) : List (Nat × Nat) :=
  (ascKeys ds).map (fun k => (k, countOf ds k))

/-- First entry attaining the maximal count — the head of the stable
(ES2019) descending-by-count sort `.sort(([,a],[,b]) => b - a)[0]`. -/
def pickFirstMax (init : Nat × Nat) (l : List (Nat × Nat)) : Nat × Nat :=
  l.foldl (fun best p => if p.2 > best.2 then p else best) init

/-- `mostCommonDecimals`: the key of the first maximal-count entry of the
count table (src/utils/chainData.ts:250-256); `parseInt` on the key string
recovers the numeric value. -/
def mostCommonDecimals (ds : List Nat) : Nat :=
  (pickFirstMax (0, 0) (countEntries ds)).1

/-- `getAssetInfo`: `null` when nothing matches, else the symbol of the first
chosen match together with the most common decimals of the chosen set. -/
def getAssetInfo (ed : EverclearData) (tickerhash : String) : Option (String × Nat) :=
  if (foundAssets ed tickerhash).isEmpty then none
  else
    let assetsToUse := chosenAssets ed tickerhash
    some ((assetsToUse.headD defaultFoundAsset).symbol,
          mostCommonDecimals (assetsToUse.map (fun a => a.decimals)))

/-! ### Invoice enrichment (`getInvoicesFormatted`, src/index.ts:437-608)

Raw invoice fields come from parsed JSON and are modelled as optional values;
the `destinations` field additionally distinguishes a truthy non-array value
(a wrongly-typed field), on which `invoice.destinations.join(',')` throws a
`TypeError`.  `createdAt` timestamps are modelled by the epoch-milliseconds
value they parse to (string-to-date parsing is abstracted). -/

/-- The JSON value of a `destinations` field: absent (or otherwise falsy), an
array of chain ids, or a truthy non-array value. -/
inductive Dests where
  | absent
  | arr (ds : List String)
  | nonArray (descr : String)
deriving DecidableEq

/-- A raw invoice record (fields of interest; all optional). -/
structure RawInvoice where
  createdAt : Option Int := none
  origin : Option String := none
  destination : Option String := none
  destinations : Dests := .absent
  asset : Option String := none
  ticker_hash : Option String := none
  amount : Option String := none
  intent_id : Option String := none
  owner : Option String := none
  hub_invoice_enqueued_timestamp : Option String := none
deriving DecidableEq

/-- An enriched invoice record: every original field plus the formatted
fields added by `getInvoicesFormatted`. -/
structure Enriched where
  createdAt : Int
  origin : String
  destination : String
  destinations : Dests
  asset : String
  amount : String
  open_time : String
  open_time_seconds : Int
  amount_raw : String
  intent_id : Option String
  owner : Option String
  hub_invoice_enqueued_timestamp : Option String
  processing_error : Option String
deriving DecidableEq

/-- The expression
`invoice.destinations ? invoice.destinations.join(',') : invoice.destination || 'unknown'`
(src/index.ts:536 and again at 551): on a truthy non-array `destinations` the
`.join` call throws a `TypeError`. -/
def destinationsJoin (inv : RawInvoice) : Except String String :=
  match inv.destinations with
  | .arr ds => .ok (String.intercalate "," ds)
  | .nonArray _ => .error "invoice.destinations.join is not a function"
  | .absent => .ok (jsOr inv.destination ("unknown"))

/-- The destination-name computation of the `try` block (src/index.ts:490-503):
an array resolves each entry and formats it, anything else falls back to the
singular `destination`; `formattedDestinations` keeps the original value when
`destinations` is not an array. -/
def destinationInfo (cd : ChainData) (inv : RawInvoice) : String × Dests :=
  match inv.destinations with
  | .arr ds =>
      let destNames := ds.map (convertChainIdToName cd)
      (String.intercalate ", " destNames,
       .arr ((ds.zip destNames).map (fun p => s!"{p.2} ({p.1})")))
  | other =>
      (match optTruthy inv.destination with
       | some d => convertChainIdToName cd d
       | none => "Unknown Chain", other)

/-- The `try` block of the per-invoice enrichment (src/index.ts:479-543),
parametrised by the snapshots the chain-data service currently serves and by
the current time in epoch milliseconds. -/
def enrichTry (cd : ChainData) (ed : EverclearData) (now : Int) (inv : RawInvoice) : Except String Enriched :=
  match destinationsJoin inv with
  | .error e => .error e
  | .ok destId =>
      let createdAt := inv.createdAt.getD now
      let openTime := Int.fdiv (now - createdAt) 1000
      let originChainName :=
        match optTruthy inv.origin with
        | some o => convertChainIdToName cd o
        | none => "Unknown Chain"
      let destInfo := destinationInfo cd inv
      let tickerHash := (optTruthy inv.asset).orElse (fun _ => optTruthy inv.ticker_hash)
      let assetRes :=
        match tickerHash with
        | none => ("Unknown Token", 18)
        | some th =>
            match getAssetInfo ed th with
            | some r => r
            | none => (convertTickerhashToName cd th, 18)
      let originId := jsOr inv.origin ("unknown")
      let destName := destInfo.1
      let assetName := assetRes.1
      let tickerId := tickerHash.getD ("unknown")
      .ok { createdAt := createdAt
            origin := s!"{originChainName} ({originId})"
            destination := s!"{destName} ({destId})"
            destinations := destInfo.2
            asset := s!"{assetName} ({tickerId})"
            amount := convertAmount inv.amount assetRes.2
            open_time := s!"{openTime} seconds"
            open_time_seconds := openTime
            amount_raw := jsOr inv.amount ("0")
            intent_id := inv.intent_id
            owner := inv.owner
            hub_invoice_enqueued_timestamp := inv.hub_invoice_enqueued_timestamp
            processing_error := none }

/-- The `catch` block of the per-invoice enrichment (src/index.ts:544-562):
minimal formatting plus `processing_error`.  It re-evaluates
`invoice.destinations.join(',')`, so it throws for the same wrongly-typed
`destinations` values that make the `try` block throw. -/
def enrichCatch (now : Int) (inv : RawInvoice) (errMsg : String) : Except String Enriched :=
  match destinationsJoin inv with
  | .error e => .error e
  | .ok destId =>
      let originId := jsOr inv.origin ("unknown")
      let tickerId := jsOr ((optTruthy inv.asset).orElse (fun _ => optTruthy inv.ticker_hash)) ("unknown")
      .ok { createdAt := inv.createdAt.getD now
            origin := s!"Unknown Chain ({originId})"
            destination := s!"Unknown Chain ({destId})"
            destinations :=
              (match inv.destinations with
               | .arr ds => .arr (ds.map (fun d => s!"Unknown Chain ({d})"))
               | other => other)
            asset := s!"Unknown Token ({tickerId})"
            amount := jsOr inv.amount ("0.000000")
            open_time := "0 seconds"
            open_time_seconds := 0
            amount_raw := jsOr inv.amount ("0")
            intent_id := inv.intent_id
            owner := inv.owner
            hub_invoice_enqueued_timestamp := inv.hub_invoice_enqueued_timestamp
            processing_error := some errMsg }

/-- One element of the `invoices.map(async (invoice) => { try ... catch ... })`
fan-out: the `try` block, falling back to the `catch` block; an error escaping
the `catch` block rejects the whole `Promise.all`. -/
def processInvoice (cd : ChainData) (ed : EverclearData) (now : Int) (inv : RawInvoice) : Except String Enriched :=
  match enrichTry cd ed now inv with
  | .ok e => .ok e
  | .error msg => enrichCatch now inv msg

/-- `Promise.all` over the per-invoice enrichment: the enriched batch, or the
first escaping rejection (which aborts the whole request). -/
def formatInvoices (cd : ChainData) (ed : EverclearData) (now : Int) (invs : List RawInvoice) : Except String (List Enriched) :=
  invs.mapM (processInvoice cd ed now)

/-! ### Batch normalization (src/index.ts:441-474) -/

/-- The shape of the upstream `/invoices` JSON response: a bare array, an
object (whose `invoices` / `data` / `results` properties are recorded when
they are arrays, and which can itself be read as a single record), or a
non-object primitive. -/
inductive InvoicesResponse where
  | arr (rs : List RawInvoice)
  | obj (invoices data results : Option (List RawInvoice)) (self : RawInvoice)
  | nonObj (descr : String)
deriving DecidableEq

/-- The early-return payload for an unshaped response:
`{ invoices: [], total: 0, error: 'No invoice data found', ... }`. -/
structure EmptyResult where
  invoices : List RawInvoice
  total : Nat
  error : String
deriving DecidableEq

/-- The batch-normalization step of `getInvoicesFormatted`: unwrap
`invoices` / `data` / `results` in that order, treat a bare array as itself,
wrap any other object as a one-element batch, and turn a non-object response
into the diagnostic empty result instead of raising. -/
def normalizeInvoices : InvoicesResponse → List RawInvoice ⊕ EmptyResult
  | .arr rs => .inl rs
  | .obj invoices data results self =>
      match invoices with
      | some rs => .inl rs
      | none =>
          match data with
          | some rs => .inl rs
          | none =>
              match results with
              | some rs => .inl rs
              | none => .inl [self]
  | .nonObj _ => .inr { invoices := [], total := 0, error := "No invoice data found" }

/-! ### CSV projection (src/index.ts:567-578) -/

/-- Parse the longest (non-empty) digit prefix in the given base, ignoring
whatever follows it; `none` when no leading digit exists. -/
def parsePrefixDigits (digit : Char → Option Nat) (base : Nat) (cs : List Char) : Option Nat :=
  let ds := cs.takeWhile (fun c => (digit c).isSome)
  if ds.isEmpty then none
  else some (ds.foldl (fun a c => a * base + (digit c).getD 0) 0)

/-- ECMAScript `parseInt` with no radix argument: skip leading whitespace,
optional sign, `0x`/`0X` switches to hexadecimal, then the longest digit
prefix; `none` models `NaN`. -/
def jsParseInt (s : String) : Option Int :=
  let cs := s.toList.dropWhile Char.isWhitespace
  match cs with
  | '+' :: rest => (parsePrefixDigits decDigit 10 rest).map Int.ofNat
  | '-' :: rest => (parsePrefixDigits decDigit 10 rest).map (fun n => -(n : Int))
  | '0' :: 'x' :: rest => (parsePrefixDigits hexDigit 16 rest).map Int.ofNat
  | '0' :: 'X' :: rest => (parsePrefixDigits hexDigit 16 rest).map Int.ofNat
  | _ => (parsePrefixDigits decDigit 10 cs).map Int.ofNat

/-- Zero-pad a natural to two decimal digits. -/
def pad2 (n : Nat) : String :=
  padLeftZeros 2 (toString n)

/-- `Date.prototype.toISOString` for an epoch-milliseconds value inside the
valid `Date` range, via the standard civil-from-days calendar algorithm;
years outside `0..9999` use the expanded six-digit form. -/
def isoOfEpochMs (ms : Int) : String :=
  let secs := Int.fdiv ms 1000
  let msPart := (ms - secs * 1000).toNat
  let days := Int.fdiv secs 86400
  let sod := (secs - days * 86400).toNat
  let z := days + 719468
  let era := Int.fdiv z 146097
  let doe := (z - era * 146097).toNat
  let yoe := (doe - doe / 1460 + doe / 36524 - doe / 146096) / 365
  let doy := doe - (365 * yoe + yoe / 4 - yoe / 100)
  let mp := (5 * doy + 2) / 153
  let d := doy - (153 * mp + 2) / 5 + 1
  let m := if mp < 10 then mp + 3 else mp - 9
  let y : Int := (yoe : Int) + era * 400 + (if m ≤ 2 then 1 else 0)
  let yearStr :=
    if 0 ≤ y ∧ y ≤ 9999 then padLeftZeros 4 (toString y.toNat)
    else (if y < 0 then "-" else "+") ++ padLeftZeros 6 (toString y.natAbs)
  yearStr ++ "-" ++ pad2 m ++ "-" ++ pad2 d ++ "T" ++ pad2 (sod / 3600) ++ ":"
    ++ pad2 (sod % 3600 / 60) ++ ":" ++ pad2 (sod % 60) ++ "."
    ++ padLeftZeros 3 (toString msPart) ++ "Z"

/-- The "Created At" cell (src/index.ts:575-576):
`invoice.hub_invoice_enqueued_timestamp ? new Date(parseInt(...) * 1000).toISOString() : 'N/A'`.
`toISOString` throws a `RangeError` on an invalid date — when `parseInt`
returned `NaN` or the millisecond value is outside the `Date` range. -/
def createdAtCell (e : Enriched) : Except String String :=
  match optTruthy e.hub_invoice_enqueued_timestamp with
  | none => .ok "N/A"
  | some ts =>
      match jsParseInt ts with
      | none => .error "Invalid time value"
      | some n =>
          if (n * 1000).natAbs ≤ 8640000000000000 then .ok (isoOfEpochMs (n * 1000))
          else .error "Invalid time value"

/-- The fixed CSV header row (src/index.ts:567). -/
def csvHeaders : String :=
  "Intent ID,Owner,Amount,Origin,Destination,Asset,Created At"

/-- The cells of one CSV row, given the already-computed "Created At" cell:
the seven cells in fixed order, each falling back to `'N/A'` when falsy, each
wrapped in double quotes, joined by commas (src/index.ts:568-577). -/
def csvRowCells (e : Enriched) (created : String) : String :=
  String.intercalate ","
    (([jsOr e.intent_id ("N/A"), jsOr e.owner ("N/A"), jsOrStr e.amount ("N/A"),
       jsOrStr e.origin ("N/A"), jsOrStr e.destination ("N/A"), jsOrStr e.asset ("N/A"),
       created]).map (fun v => "\"" ++ v ++ "\""))

/-- One CSV row: the "Created At" conversion can throw, everything else is
total. -/
def csvRow (e : Enriched) : Except String String :=
  match createdAtCell e with
  | .error err => .error err
  | .ok created => .ok (csvRowCells e created)

/-- The CSV projection of the enriched batch (src/index.ts:578):
`[csvHeaders, ...csvRows].join('\n')`. -/
def csvData (es : List Enriched) : Except String String :=
  (es.mapM csvRow).map (fun rows => String.intercalate "\n" (csvHeaders :: rows))

/-! ### Auxiliary vocabulary and concrete instances used by the theorems -/

/-- Maximum of the second components of a list of pairs (`0` when empty). -/
def maxSnd (l : List (Nat × Nat)) : Nat :=
  l.foldr (fun p a => Nat.max p.2 a) 0

/-- A raw invoice whose only populated field is the amount `"1"`. -/
def invoiceWithTinyAmount : RawInvoice :=
  { amount := some ("1") }

/-- A raw invoice whose `destinations` field holds a truthy non-array value
(for example the number `5`). -/
def invoiceWithBadDestinations : RawInvoice :=
  { destinations := Dests.nonArray "5" }

/-- The registry of the spec's tie-break example: the fingerprint `tick`
matches `{decimals 6, EVM} ×2` (hub) and `{decimals 18, non-EVM} ×1`. -/
def exampleRegistryC3 : EverclearData :=
  { hub := { assets := [("a1", { symbol := "TKN", tickerHash := "tick", decimals := 6 }),
                        ("a2", { symbol := "TKN", tickerHash := "tick", decimals := 6 })] }
    chains := [("999", { network := "svm",
                         assets := [("a3", { symbol := "TKN", tickerHash := "tick", decimals := 18 })] })] }

/-- A registry in which the fingerprint `t` has a two-way decimals tie
(18 first, then 6, both EVM). -/
def tieRegistry : EverclearData :=
  { hub := { assets := [("k1", { symbol := "A", tickerHash := "t", decimals := 18 }),
                        ("k2", { symbol := "A", tickerHash := "t", decimals := 6 })] }
    chains := [] }

/-- A concrete enriched record with a well-formed enqueue timestamp. -/
def demoEnrichedA : Enriched :=
  { createdAt := 1700000000000, origin := "Ethereum (1)", destination := "Base (8453)",
    destinations := Dests.arr ["Base (8453)"], asset := "USDC (0xabc)", amount := "1.000000",
    open_time := "5 seconds", open_time_seconds := 5, amount_raw := "1000000",
    intent_id := some ("0xintent"), owner := some ("0xowner"),
    hub_invoice_enqueued_timestamp := some ("1700000000"), processing_error := none }

/-- A concrete enriched record with no enqueue timestamp and several missing
fields. -/
def demoEnrichedB : Enriched :=
  { createdAt := 0, origin := "Unknown Chain (unknown)", destination := "Unknown Chain (unknown)",
    destinations := Dests.absent, asset := "Unknown Token (unknown)", amount := "0.000000",
    open_time := "0 seconds", open_time_seconds := 0, amount_raw := "0",
    intent_id := none, owner := none,
    hub_invoice_enqueued_timestamp := none, processing_error := none }

/-- A two-record enriched batch used to exercise the CSV projection. -/
def demoEnrichedBatch : List Enriched :=
  [demoEnrichedA, demoEnrichedB]

example : convertAmount (some ("1000000")) 6 = "1.000000" := by decide
example : specToDecimalString ("1000000") 6 = some "1.000000" := by decide
example : convertAmount (some ("1")) 18 = "0.000000" := by decide
example : convertAmount none 18 = "0.000000" := by decide
example : convertAmount (some ("12.5")) 18 = "12.5" := by decide
example : isoOfEpochMs 1700000000000 = "2023-11-14T22:13:20.000Z" := by decide
example : isoOfEpochMs 0 = "1970-01-01T00:00:00.000Z" := by decide
example : jsParseInt ("1700000000") = some 1700000000 := by decide
example : jsParseInt ("abc") = none := by decide
example : convertChainIdToName (transformData emptyEverclearData) ("42161") = "Arbitrum" := by decide

/-! ## Supporting lemmas -/

/-- Full computation of the enrichment of the record with every optional
field missing. -/
lemma processInvoice_empty (cd : ChainData) (ed : EverclearData) (now : Int) :
    processInvoice cd ed now {} = Except.ok
      { createdAt := now, origin := "Unknown Chain (unknown)", destination := "Unknown Chain (unknown)",
        destinations := .absent, asset := "Unknown Token (unknown)", amount := "0.000000",
        open_time := "0 seconds", open_time_seconds := 0, amount_raw := "0",
        intent_id := none, owner := none, hub_invoice_enqueued_timestamp := none,
        processing_error := none } := by
  have hamount : convertAmount none 18 = "0.000000" := by decide
  have hopen : Int.fdiv (now - now) 1000 = 0 := by simp
  simp [processInvoice, enrichTry, destinationsJoin, destinationInfo, optTruthy, jsOr, hamount, hopen]
  exact ⟨by decide, by decide, by decide⟩

/-- An absent or empty amount takes the normal numeric path with `BigInt('0')`
and renders as `"0.000000"` for every decimals value. -/
lemma convertAmount_absent_empty (amt : Option String) (decimals : Nat)
    (h : amt = none ∨ amt = some "") : convertAmount amt decimals = "0.000000" := by
  have hp : jsBigIntParse ("0") = some 0 := by decide
  have hor : jsOr amt ("0") = "0" := by rcases h with rfl | rfl <;> rfl
  have hor2 : jsOr amt ("0.000000") = "0.000000" := by rcases h with rfl | rfl <;> rfl
  cases hq : jsPow10BigInt decimals with
  | none => simp [convertAmount, hq, hor, hor2, hp]
  | some d =>
      simp only [convertAmount, hor, hor2, hp, hq]
      norm_num [roundPair, fixed6OfPair]
      decide

lemma maxSnd_cons (p : Nat × Nat) (t : List (Nat × Nat)) :
    maxSnd (p :: t) = Nat.max p.2 (maxSnd t) := rfl

lemma maxSnd_ge (l : List (Nat × Nat)) : ∀ p ∈ l, p.2 ≤ maxSnd l := by
  induction l with
  | nil => simp
  | cons q t ih =>
      intro p hp
      rcases List.mem_cons.1 hp with rfl | hp
      · rw [maxSnd_cons]; exact Nat.le_max_left _ _
      · rw [maxSnd_cons]; exact (ih p hp).trans (Nat.le_max_right _ _)

lemma pickFirstMax_cons (init p : Nat × Nat) (t : List (Nat × Nat)) :
    pickFirstMax init (p :: t) = pickFirstMax (if p.2 > init.2 then p else init) t := rfl

lemma pickFirstMax_snd (l : List (Nat × Nat)) :
    ∀ init, (pickFirstMax init l).2 = Nat.max init.2 (maxSnd l) := by
  induction l with
  | nil => intro init; simp [pickFirstMax, maxSnd]
  | cons p t ih =>
      intro init
      rw [pickFirstMax_cons, ih, maxSnd_cons]
      by_cases h : p.2 > init.2
      · rw [if_pos h]
        exact (Nat.max_eq_right (le_trans h.le (Nat.le_max_left _ _))).symm
      · rw [if_neg h]
        have hle : p.2 ≤ init.2 := Nat.not_lt.1 h
        simp only [Nat.max_def]
        split_ifs <;> omega

lemma pickFirstMax_mem (l : List (Nat × Nat)) :
    ∀ init, pickFirstMax init l ∈ init :: l := by
  induction l with
  | nil => intro init; simp [pickFirstMax]
  | cons p t ih =>
      intro init
      rw [pickFirstMax_cons]
      rcases List.mem_cons.1 (ih (if p.2 > init.2 then p else init)) with h | h
      · rw [h]
        by_cases hp : p.2 > init.2
        · rw [if_pos hp]; exact List.mem_cons_of_mem _ (List.mem_cons_self _ _)
        · rw [if_neg hp]; exact List.mem_cons_self _ _
      · exact List.mem_cons_of_mem _ (List.mem_cons_of_mem _ h)

lemma pickFirstMax_stay (l : List (Nat × Nat)) :
    ∀ init, (∀ q ∈ l, q.2 ≤ init.2) → pickFirstMax init l = init := by
  induction l with
  | nil => intro init _; rfl
  | cons p t ih =>
      intro init h
      rw [pickFirstMax_cons, if_neg (Nat.not_lt.2 (h p (List.mem_cons_self _ _)))]
      exact ih init (fun q hq => h q (List.mem_cons_of_mem _ hq))

lemma pickFirstMax_least (l : List (Nat × Nat)) :
    ∀ init, l.Pairwise (fun p q => p.1 < q.1) → init.2 < maxSnd l →
      pickFirstMax init l ∈ l ∧ ∀ p ∈ l, p.2 = maxSnd l → (pickFirstMax init l).1 ≤ p.1 := by
  induction l with
  | nil =>
      intro init _ hgt
      exact absurd hgt (by simp [maxSnd])
  | cons p t ih =>
      intro init hasc hgt
      obtain ⟨hp, hasct⟩ := List.pairwise_cons.1 hasc
      rw [pickFirstMax_cons]
      by_cases hcase : maxSnd t ≤ p.2
      · have hmax : maxSnd (p :: t) = p.2 := by rw [maxSnd_cons]; exact Nat.max_eq_left hcase
        have hinit : init.2 < p.2 := hmax ▸ hgt
        rw [if_pos hinit, pickFirstMax_stay t p (fun q hq => (maxSnd_ge t q hq).trans hcase)]
        refine ⟨List.mem_cons_self _ _, ?_⟩
        intro r hr _
        rcases List.mem_cons.1 hr with rfl | hr
        · exact le_refl _
        · exact le_of_lt (hp r hr)
      · rw [Nat.not_le] at hcase
        have hmax : maxSnd (p :: t) = maxSnd t := by
          rw [maxSnd_cons]; exact Nat.max_eq_right (le_of_lt hcase)
        have hstep : (if p.2 > init.2 then p else init).2 < maxSnd t := by
          by_cases hp2 : p.2 > init.2
          · rw [if_pos hp2]; exact hcase
          · rw [if_neg hp2]; exact hmax ▸ hgt
        obtain ⟨hmem, hleast⟩ := ih _ hasct hstep
        refine ⟨List.mem_cons_of_mem _ hmem, ?_⟩
        intro r hr hrmax
        rcases List.mem_cons.1 hr with rfl | hr
        · exact absurd (hmax ▸ hrmax) (Nat.ne_of_lt hcase)
        · exact hleast r hr (hmax ▸ hrmax)

lemma le_foldr_max (ds : List Nat) : ∀ k ∈ ds, k ≤ ds.foldr Nat.max 0 := by
  induction ds with
  | nil => simp
  | cons a t ih =>
      intro k hk
      rcases List.mem_cons.1 hk with rfl | hk
      · exact Nat.le_max_left _ _
      · exact (ih k hk).trans (Nat.le_max_right _ _)

lemma mem_ascKeys (ds : List Nat) (k : Nat) : k ∈ ascKeys ds ↔ k ∈ ds := by
  unfold ascKeys
  rw [List.mem_filter]
  constructor
  · rintro ⟨-, h⟩
    simpa using h
  · intro h
    refine ⟨List.mem_range.2 (Nat.lt_succ_of_le (le_foldr_max ds k h)), by simpa using h⟩

lemma ascKeys_sorted (ds : List Nat) : (ascKeys ds).Pairwise (· < ·) :=
  (List.pairwise_lt_range _).filter _

lemma countEntries_sorted (ds : List Nat) :
    (countEntries ds).Pairwise (fun p q => p.1 < q.1) := by
  unfold countEntries
  exact List.pairwise_map.2 (ascKeys_sorted ds)

lemma mem_countEntries (ds : List Nat) (p : Nat × Nat) :
    p ∈ countEntries ds ↔ p.1 ∈ ds ∧ p.2 = countOf ds p.1 := by
  unfold countEntries
  rw [List.mem_map]
  constructor
  · rintro ⟨k, hk, rfl⟩
    exact ⟨(mem_ascKeys ds k).1 hk, rfl⟩
  · rcases p with ⟨k, c⟩
    rintro ⟨h1, h2⟩
    simp only at h1 h2
    subst h2
    exact ⟨k, (mem_ascKeys ds k).2 h1, rfl⟩

lemma countOf_pos (ds : List Nat) (k : Nat) : k ∈ ds ↔ 0 < countOf ds k := by
  unfold countOf
  constructor
  · intro h
    have hk : k ∈ ds.filter (fun d => d == k) := List.mem_filter.2 ⟨h, by simp⟩
    exact List.length_pos.2 (List.ne_nil_of_mem hk)
  · intro h
    obtain ⟨a, ha⟩ := List.exists_mem_of_ne_nil _ (List.length_pos.1 h)
    obtain ⟨ha1, ha2⟩ := List.mem_filter.1 ha
    simpa [show a = k by simpa using ha2] using ha1

lemma maxSnd_countEntries_pos (ds : List Nat) (h : ds ≠ []) :
    0 < maxSnd (countEntries ds) := by
  obtain ⟨k, hk⟩ := List.exists_mem_of_ne_nil ds h
  have hmem : ((k, countOf ds k) : Nat × Nat) ∈ countEntries ds :=
    (mem_countEntries ds _).2 ⟨hk, rfl⟩
  exact lt_of_lt_of_le ((countOf_pos ds k).1 hk) (maxSnd_ge _ _ hmem)

/-- Characterisation of `mostCommonDecimals` on a non-empty list: it is an
element of the list, its count is maximal, and among the elements of maximal
count it is the smallest (ascending integer-key iteration + stable sort). -/
lemma mostCommonDecimals_spec (ds : List Nat) (hne : ds ≠ []) :
    mostCommonDecimals ds ∈ ds ∧
    (∀ j ∈ ds, countOf ds j ≤ countOf ds (mostCommonDecimals ds)) ∧
    (∀ j ∈ ds, countOf ds j = countOf ds (mostCommonDecimals ds) → mostCommonDecimals ds ≤ j) := by
  have hgt : ((0, 0) : Nat × Nat).2 < maxSnd (countEntries ds) := maxSnd_countEntries_pos ds hne
  obtain ⟨hmem, hleast⟩ := pickFirstMax_least (countEntries ds) (0, 0) (countEntries_sorted ds) hgt
  have hsnd : (pickFirstMax (0, 0) (countEntries ds)).2 = maxSnd (countEntries ds) := by
    rw [pickFirstMax_snd]
    exact Nat.max_eq_right (le_of_lt hgt)
  obtain ⟨hin, hcnt⟩ := (mem_countEntries ds _).1 hmem
  refine ⟨hin, ?_, ?_⟩
  · intro j hj
    have hjmem : ((j, countOf ds j) : Nat × Nat) ∈ countEntries ds :=
      (mem_countEntries ds _).2 ⟨hj, rfl⟩
    have := maxSnd_ge _ _ hjmem
    unfold mostCommonDecimals
    rw [← hcnt, hsnd]
    exact this
  · intro j hj hEq
    have hjmem : ((j, countOf ds j) : Nat × Nat) ∈ countEntries ds :=
      (mem_countEntries ds _).2 ⟨hj, rfl⟩
    refine hleast _ hjmem ?_
    show countOf ds j = _
    rw [hEq]
    unfold mostCommonDecimals at *
    rw [← hcnt] at *
    exact hsnd

lemma chosenAssets_ne_nil (ed : EverclearData) (th : String)
    (hne : foundAssets ed th ≠ []) : chosenAssets ed th ≠ [] := by
  unfold chosenAssets
  by_cases h : ((foundAssets ed th).filter (fun a => a.isEvm)).length > 0
  · rw [if_pos h]
    exact List.length_pos.1 h
  · rw [if_neg h]
    exact hne

/-- On a matching fingerprint, `getAssetInfo` returns the symbol of the first
chosen match and the most common decimals of the chosen partition. -/
lemma getAssetInfo_eq (ed : EverclearData) (th : String)
    (hne : foundAssets ed th ≠ []) :
    getAssetInfo ed th = some (((chosenAssets ed th).headD defaultFoundAsset).symbol,
      mostCommonDecimals ((chosenAssets ed th).map (fun a => a.decimals))) := by
  unfold getAssetInfo
  rw [if_neg (by simp [List.isEmpty_iff, hne])]

lemma lookupAssoc_of_mem (l : List (String × String)) (k v : String)
    (hnodup : (l.map Prod.fst).Nodup) (hmem : (k, v) ∈ l) :
    lookupAssoc l k = some v := by
  induction l with
  | nil => cases hmem
  | cons p t ih =>
      rcases List.mem_cons.1 hmem with rfl | hmem
      · unfold lookupAssoc
        rw [List.find?_cons_of_pos _ (by simp)]
        rfl
      · have hd : p.1 ≠ k := by
          intro hEq
          exact (List.nodup_cons.1 hnodup).1
            (hEq ▸ List.mem_map.2 ⟨(k, v), hmem, rfl⟩)
        unfold lookupAssoc
        rw [List.find?_cons_of_neg _ (by simp [hd])]
        exact ih (List.nodup_cons.1 hnodup).2 hmem

lemma lookupAssoc_of_not_mem {α : Type} (l : List (String × α)) (k : String)
    (h : k ∉ l.map Prod.fst) : lookupAssoc l k = none := by
  induction l with
  | nil => rfl
  | cons p t ih =>
      have hd : p.1 ≠ k := by
        intro hEq
        exact h (hEq ▸ List.mem_map.2 ⟨p, List.mem_cons_self _ _, rfl⟩)
      unfold lookupAssoc
      rw [List.find?_cons_of_neg _ (by simp [hd])]
      exact ih (fun hm => h (List.mem_cons_of_mem _ hm))

/-- The chains component of the transformed snapshot is exactly the hardcoded
enumeration, independently of the fetched document. -/
lemma transformData_chains (ed : EverclearData) :
    (transformData ed).chains = chainNames := by
  show chainNames.foldl (fun m p => upsertAssoc m p.1 p.2) [] = chainNames
  decide

/-- The CSV rows succeed and take their shape row-by-row as soon as every
"Created At" cell converts. -/
lemma csvRows_ok (es : List Enriched) (h : ∀ e ∈ es, (createdAtCell e).isOk = true) :
    es.mapM csvRow
      = Except.ok (es.map (fun e => csvRowCells e ((createdAtCell e).toOption.getD ("N/A")))) := by
  induction es with
  | nil => rfl
  | cons e tl ih =>
      obtain ⟨c, hc⟩ : ∃ c, createdAtCell e = .ok c := by
        have he := h e (List.mem_cons_self _ _)
        cases hx : createdAtCell e with
        | ok c => exact ⟨c, rfl⟩
        | error err => rw [hx] at he; cases he
      have hrow : csvRow e = .ok (csvRowCells e c) := by
        unfold csvRow
        rw [hc]
      have htl := ih (fun x hx => h x (List.mem_cons_of_mem _ hx))
      simp only [List.mapM_cons, hrow, htl, List.map_cons, hc]
      rfl

/-! ## Claim theorems -/

/-- C1: the amount normalization used by enrichment does NOT compute the
exact truncated value of `rawAmount / 10^decimals`: it divides `Number`
approximations of the operands in 64-bit floating point and rounds with
`toFixed(6)`.  At the spec's own large test vector the code produces
`123456789012.345673` whereas the exact 6-digit truncation (the value the
claim demands, restated by `specToDecimalString`) is `123456789012.345678`;
the small test vector agrees. -/
theorem convertAmount_loses_precision :
    convertAmount (some ("123456789012345678901234567890")) 18 = "123456789012.345673" ∧
    specToDecimalString ("123456789012345678901234567890") 18 = some "123456789012.345678" ∧
    ("123456789012.345673" : String) ≠ "123456789012.345678" ∧
    convertAmount (some ("1000000")) 6 = "1.000000" :=
  ⟨by decide, by decide, by decide, by decide⟩

/-- C2: a record whose `destinations` field is a truthy non-array value makes
the `try` block throw at `invoice.destinations.join(',')`; the `catch` block
re-evaluates the same expression and throws again, so the rejection escapes
`Promise.all` and the whole batch is aborted — the faulted record does not
appear in any output batch, contradicting the claimed length invariance. -/
theorem batch_aborts_on_bad_destinations :
    formatInvoices emptyChainData emptyEverclearData 0 [invoiceWithBadDestinations]
      = Except.error "invoice.destinations.join is not a function" ∧
    enrichCatch 0 invoiceWithBadDestinations "invoice.destinations.join is not a function"
      = Except.error "invoice.destinations.join is not a function" :=
  ⟨by decide, by decide⟩

/-- C3: when at least one asset matches, `getAssetInfo` works on the chosen
partition (the EVM matches when any exist, else all matches: `chosenAssets`)
and returns its strictly most frequent decimals value together with the
symbol of the first chosen match. -/
theorem getAssetInfo_evm_majority (ed : EverclearData) (th : String) (d : Nat)
    (hne : foundAssets ed th ≠ [])
    (hmem : d ∈ (chosenAssets ed th).map (fun a => a.decimals))
    (hstrict : ∀ k ∈ (chosenAssets ed th).map (fun a => a.decimals), k ≠ d →
      countOf ((chosenAssets ed th).map (fun a => a.decimals)) k
        < countOf ((chosenAssets ed th).map (fun a => a.decimals)) d) :
    getAssetInfo ed th = some (((chosenAssets ed th).headD defaultFoundAsset).symbol, d) := by
  rw [getAssetInfo_eq ed th hne]
  have hdsne : (chosenAssets ed th).map (fun a => a.decimals) ≠ [] :=
    List.ne_nil_of_mem hmem
  obtain ⟨hm, hmax, -⟩ := mostCommonDecimals_spec _ hdsne
  by_cases h : mostCommonDecimals ((chosenAssets ed th).map (fun a => a.decimals)) = d
  · rw [h]
  · exact absurd (hmax d hmem) (Nat.not_le.2 (hstrict _ hm h))

/-- C3 witness: the spec's example — matches `{decimals 6, EVM} ×2` and
`{decimals 18, non-EVM} ×1` select decimals 6 (EVM partition majority). -/
theorem getAssetInfo_evm_majority_witness :
    getAssetInfo exampleRegistryC3 ("tick") = some ("TKN", 6) :=
  getAssetInfo_evm_majority exampleRegistryC3 ("tick") 6 (by decide) (by decide) (by decide)

/-- C4 counterexample: a two-way tie (`18` encountered first, then `6`, both
EVM) is NOT broken in favour of the first-encountered value: the code returns
decimals `6` although the first match of the chosen partition has decimals
`18`, because the count object iterates its integer keys in ascending order
and the stable sort keeps that order among ties. -/
theorem getAssetInfo_tie_counterexample :
    getAssetInfo tieRegistry ("t") = some ("A", 6) ∧
    ((chosenAssets tieRegistry ("t")).headD defaultFoundAsset).decimals = 18 ∧
    countOf ((chosenAssets tieRegistry ("t")).map (fun a => a.decimals)) 18
      = countOf ((chosenAssets tieRegistry ("t")).map (fun a => a.decimals)) 6 :=
  ⟨by decide, by decide, by decide⟩

/-- C4 amended: on a tie in the maximal decimals frequency, `getAssetInfo`
returns the SMALLEST tied decimals value of the chosen partition (not the
first-encountered one); the symbol is still that of the first chosen match. -/
theorem getAssetInfo_tie_least (ed : EverclearData) (th : String)
    (hne : foundAssets ed th ≠ []) :
    ∃ k, getAssetInfo ed th = some (((chosenAssets ed th).headD defaultFoundAsset).symbol, k) ∧
      k ∈ (chosenAssets ed th).map (fun a => a.decimals) ∧
      (∀ j ∈ (chosenAssets ed th).map (fun a => a.decimals),
        countOf ((chosenAssets ed th).map (fun a => a.decimals)) j
          ≤ countOf ((chosenAssets ed th).map (fun a => a.decimals)) k) ∧
      (∀ j ∈ (chosenAssets ed th).map (fun a => a.decimals),
        countOf ((chosenAssets ed th).map (fun a => a.decimals)) j
          = countOf ((chosenAssets ed th).map (fun a => a.decimals)) k → k ≤ j) := by
  have hdsne : (chosenAssets ed th).map (fun a => a.decimals) ≠ [] := by
    simpa using chosenAssets_ne_nil ed th hne
  obtain ⟨hm, hmax, hleast⟩ := mostCommonDecimals_spec _ hdsne
  exact ⟨_, getAssetInfo_eq ed th hne, hm, hmax, hleast⟩

/-- C4 witness: the amended tie-break at the concrete tie registry. -/
theorem getAssetInfo_tie_least_witness :
    ∃ k, getAssetInfo tieRegistry ("t")
        = some (((chosenAssets tieRegistry ("t")).headD defaultFoundAsset).symbol, k) ∧
      k ∈ (chosenAssets tieRegistry ("t")).map (fun a => a.decimals) ∧
      (∀ j ∈ (chosenAssets tieRegistry ("t")).map (fun a => a.decimals),
        countOf ((chosenAssets tieRegistry ("t")).map (fun a => a.decimals)) j
          ≤ countOf ((chosenAssets tieRegistry ("t")).map (fun a => a.decimals)) k) ∧
      (∀ j ∈ (chosenAssets tieRegistry ("t")).map (fun a => a.decimals),
        countOf ((chosenAssets tieRegistry ("t")).map (fun a => a.decimals)) j
          = countOf ((chosenAssets tieRegistry ("t")).map (fun a => a.decimals)) k → k ≤ j) :=
  getAssetInfo_tie_least tieRegistry ("t") (by decide)

/-- C5: on any successfully-transformed snapshot, every chain id of the
hardcoded enumeration maps to its exact (non-empty) display name, and every
other id maps to the verbatim placeholder `"Unknown Chain (<id>)"`, which is
never empty; the function is total, hence never fails. -/
theorem convertChainIdToName_spec (ed : EverclearData) (id name : String) :
    ((id, name) ∈ chainNames →
      convertChainIdToName (transformData ed) id = name ∧ name ≠ "") ∧
    (id ∉ chainNames.map Prod.fst →
      convertChainIdToName (transformData ed) id = "Unknown Chain (" ++ id ++ ")" ∧
      convertChainIdToName (transformData ed) id ≠ "") := by
  constructor
  · intro hmem
    have hnodup : (chainNames.map Prod.fst).Nodup := by decide
    refine ⟨?_, ?_⟩
    · unfold convertChainIdToName
      rw [transformData_chains, lookupAssoc_of_mem _ _ _ hnodup hmem]
    · have hall : ∀ p ∈ chainNames, p.2 ≠ "" := by decide
      exact hall _ hmem
  · intro hnot
    have hlook : lookupAssoc (transformData ed).chains id = none := by
      rw [transformData_chains]
      exact lookupAssoc_of_not_mem _ _ hnot
    have hval : convertChainIdToName (transformData ed) id = "Unknown Chain (" ++ id ++ ")" := by
      unfold convertChainIdToName
      rw [hlook]
      rfl
    refine ⟨hval, ?_⟩
    rw [hval]
    intro hEq
    have := congrArg String.length hEq
    simp [String.length_append] at this
    exact absurd this.2 (by decide)

/-- C5 witness: a known and an unknown chain id. -/
theorem convertChainIdToName_spec_witness :
    convertChainIdToName (transformData emptyEverclearData) ("42161") = "Arbitrum" ∧
    convertChainIdToName (transformData emptyEverclearData) ("999") = "Unknown Chain (" ++ "999" ++ ")" :=
  ⟨((convertChainIdToName_spec emptyEverclearData ("42161") ("Arbitrum")).1 (by decide)).1,
   ((convertChainIdToName_spec emptyEverclearData ("999") ("")).2 (by decide)).1⟩

/-- C6: the five tolerated response shapes all normalize to the same
sequence of records (the wrapped array, or a one-element batch for a single
bare object), and a non-object response yields the diagnostic empty result
instead of raising. -/
theorem normalizeInvoices_shapes (rs : List RawInvoice) (r : RawInvoice) (s : String) :
    normalizeInvoices (.arr rs) = .inl rs ∧
    normalizeInvoices (.obj (some rs) none none r) = .inl rs ∧
    normalizeInvoices (.obj none (some rs) none r) = .inl rs ∧
    normalizeInvoices (.obj none none (some rs) r) = .inl rs ∧
    normalizeInvoices (.obj none none none r) = .inl [r] ∧
    normalizeInvoices (.nonObj s) = .inr { invoices := [], total := 0, error := "No invoice data found" } :=
  ⟨rfl, rfl, rfl, rfl, rfl, rfl⟩

/-- C7: a record with every optional field missing enriches without any
exception to `origin = "Unknown Chain (unknown)"`, `amount = "0.000000"`,
`open_time_seconds = 0`, whatever the current snapshots and clock are. -/
theorem enrich_empty_record (cd : ChainData) (ed : EverclearData) (now : Int) :
    ∃ e, processInvoice cd ed now {} = Except.ok e ∧
      e.origin = "Unknown Chain (unknown)" ∧
      e.amount = "0.000000" ∧
      e.open_time_seconds = 0 :=
  ⟨_, processInvoice_empty cd ed now, rfl, rfl, rfl⟩

/-- C8: for a failing fetch the cache accessors return the previously cached
snapshot unchanged — the initial empty snapshot when no refresh has ever
succeeded — leaving the state untouched; being total functions they never
raise. -/
theorem cache_failure_returns_cached (st : CacheState) (now : Nat) (msg : String) :
    fetchChainData st now (.failure msg) = (st.data.getD emptyChainData, st) ∧
    fetchEverclearData st now (.failure msg) = (st.rawData.getD emptyEverclearData, st) ∧
    fetchChainData initialCacheState now (.failure msg) = (emptyChainData, initialCacheState) := by
  refine ⟨?_, ?_, ?_⟩
  · cases h : st.data with
    | none => simp [fetchChainData, h, fetchChainDataMiss]
    | some d => simp [fetchChainData, h, fetchChainDataMiss]
  · cases h : st.rawData with
    | none => simp [fetchEverclearData, h, fetchEverclearDataMiss]
    | some d => simp [fetchEverclearData, h, fetchEverclearDataMiss]
  · simp [fetchChainData, initialCacheState, fetchChainDataMiss]

/-- C9: when every record's enqueue timestamp is absent or converts to a
valid date, the CSV projection is the fixed header followed by one row per
record — each row the seven cells in the fixed order with `"N/A"` for missing
values, each cell quoted — the rows are invariant under changes to the
enriched `createdAt` field, and the "Created At" cell is a function of
`hub_invoice_enqueued_timestamp` alone. -/
theorem csvData_structure (es : List Enriched)
    (h : ∀ e ∈ es, (createdAtCell e).isOk = true) :
    csvData es = Except.ok (String.intercalate "\n" (csvHeaders ::
      es.map (fun e => csvRowCells e ((createdAtCell e).toOption.getD ("N/A"))))) ∧
    (∀ (e : Enriched) (t : Int), csvRow { e with createdAt := t } = csvRow e) ∧
    (∀ (e f : Enriched), e.hub_invoice_enqueued_timestamp = f.hub_invoice_enqueued_timestamp →
      createdAtCell e = createdAtCell f) := by
  refine ⟨?_, ?_, ?_⟩
  · unfold csvData
    rw [csvRows_ok es h]
    rfl
  · intro e t
    rfl
  · intro e f hef
    unfold createdAtCell
    rw [hef]

/-- C9 witness: the CSV projection of a concrete two-record batch. -/
theorem csvData_structure_witness :
    csvData demoEnrichedBatch = Except.ok (String.intercalate "\n" (csvHeaders ::
      demoEnrichedBatch.map (fun e => csvRowCells e ((createdAtCell e).toOption.getD ("N/A"))))) :=
  (csvData_structure demoEnrichedBatch (by decide)).1

/-- C10 counterexample: an amount that is present and non-empty (`"1"`, with
the default 18 decimals) also enriches to `"0.000000"` through the normal
conversion path, so `"0.000000"` does not imply an absent or empty amount. -/
theorem enriched_amount_zero_with_present_amount :
    (processInvoice emptyChainData emptyEverclearData 0 invoiceWithTinyAmount).map (fun e => e.amount)
      = Except.ok "0.000000" ∧
    invoiceWithTinyAmount.amount = some "1" :=
  ⟨by decide, by decide⟩

/-- C10 amended: the fallback policy of the amount conversion — an absent or
empty amount yields the fallback `"0.000000"`, and a present amount on which
`BigInt` conversion throws is echoed unchanged; (the normal numeric path may
additionally round small non-zero amounts down to `"0.000000"`). -/
theorem convertAmount_fallback_policy (amt : Option String) (decimals : Nat) :
    ((amt = none ∨ amt = some "") → convertAmount amt decimals = "0.000000") ∧
    (∀ a, amt = some a → a ≠ "" → jsBigIntParse a = none → convertAmount amt decimals = a) := by
  constructor
  · exact convertAmount_absent_empty amt decimals
  · rintro a rfl hne hparse
    simp [convertAmount, jsOr, hne, hparse]

/-- C10 witness: the amended fallback policy at concrete inputs. -/
theorem convertAmount_fallback_policy_witness :
    convertAmount none 18 = "0.000000" ∧ convertAmount (some ("12.5")) 18 = "12.5" :=
  ⟨(convertAmount_fallback_policy none 18).1 (Or.inl rfl),
   (convertAmount_fallback_policy (some ("12.5")) 18).2 ("12.5") rfl (by decide) (by decide)⟩

end Everclear
